import Mathlib

/-!
# Verification of the llm-api-server streaming composition engine

A shallow embedding, in Lean 4, of the parts of the `llm-api-server`
repository that the specification's claims are about:

* the SSE line decoder (`buffer += text; lines = buffer.split("\n");
  buffer = lines.pop()`) used by every streaming handler,
* the event classification of decoded upstream lines,
* the streaming phase composers of the module DeepSeek handler
  (`src/unnamed/part_000`, `handleDeepSeekRequest`), of the monolithic
  DeepSeek handler (`src/api-server.js`, `handleDeepSeekRequest`), and of
  the module DeepClaude handler (`src/models/deepclaude-model.js`,
  `handleDeepClaudeRequest`),
* the DeepClaude orchestration of `src/api-server.js`
  (`handleDeepClaudeRequest`, `getDeepSeekThinking`,
  `handleDirectClaudeRequest`),
* the request validation and model routing of
  `POST /v1/chat/completions` in `src/api-server.js`,
* the non-streaming (aggregate) response builders with their usage
  counters, and
* the API-key resolution of the module handlers
  (`src/models/claude-model.js` and `src/models/deepclaude-model.js`,
  `getTokenFromRequest` / `getClaudeApiKey`).

Pure data flow is modelled exactly; network I/O is modelled by passing
the upstream stream's decoded events (or raw byte chunks) as explicit
arguments, and `res.write` calls are modelled by emitting tagged
`Chunk` values whose wire content is recovered by `render`.
-/

/-! ## Outbound chunks

Each constructor corresponds to one `res.write` site of the streaming
handlers.  `render` recovers the `delta.content` string carried by the
chunk on the wire (`none` for chunks that carry no content: the initial
role chunk, the terminal `finish_reason:"stop"` chunk, the `[DONE]`
sentinel, and `event: error` frames). -/

/-- The fixed fallback notice prepended by `handleDirectClaudeRequest`
(`src/api-server.js` line 1229). -/
def fallbackNotice : String := "【注意：DeepSeek思考内容获取失败，以下是Claude直接回答】\n\n"

/-- JavaScript `String.prototype.trim`: strip whitespace from both ends
(modelled over the character list so that it evaluates by kernel
reduction). -/
def jsTrim (s : String) : String :=
  ⟨(((s.data.dropWhile Char.isWhitespace).reverse.dropWhile
      Char.isWhitespace).reverse)⟩

/-- One outbound SSE chunk, tagged by the `res.write` site that produced it. -/
inductive Chunk where
  /-- initial chunk with `delta.role = "assistant"` -/
  | role : Chunk
  /-- synthetic thinking-open marker chunk -/
  | thinkOpen : Chunk
  /-- a live-forwarded thinking delta -/
  | thinkDelta (s : String) : Chunk
  /-- synthetic thinking-close marker chunk -/
  | thinkClose : Chunk
  /-- a forwarded answer delta -/
  | answerDelta (s : String) : Chunk
  /-- the single buffered thinking block emitted by the monolithic
  DeepSeek handler (`src/api-server.js` lines 740-754); carries the raw
  accumulated thinking text, wrapped and trimmed on the wire -/
  | combined (t : String) : Chunk
  /-- the fallback-notice chunk of `handleDirectClaudeRequest` -/
  | notice : Chunk
  /-- terminal chunk with `finish_reason = "stop"` -/
  | finish : Chunk
  /-- the literal `data: [DONE]` sentinel frame -/
  | done : Chunk
  /-- an `event: error` SSE frame carrying an error message -/
  | errorFrame (msg : String) : Chunk
deriving DecidableEq

/-- The `delta.content` string a chunk carries on the wire, if any. -/
def render : Chunk → Option String
  | .role => none
  | .thinkOpen => some "<思考过程>\n"
  | .thinkDelta s => some s
  | .thinkClose => some "\n</思考过程>\n\n"
  | .answerDelta s => some s
  | .combined t => some ("<思考过程>\n" ++ jsTrim t ++ "\n</思考过程>\n\n")
  | .notice => some fallbackNotice
  | .finish => none
  | .done => none
  | .errorFrame _ => none

/-- The sequence of delta-content strings of an outbound chunk list. -/
def deltaContents (l : List Chunk) : List String := l.filterMap render

/-! ## Classified upstream events

Each decoded `data:` line of the reasoning provider is parsed as JSON
and classified by the guards that all handlers share:

* `data.content_type === "thinking" && data.content` → `thinking content`;
* `data.type === "answer" && data.content && data.content_type !== "thinking"`
  → `answer content`;
* `data.type === "answer" && data.content_type !== "thinking"` with empty
  `content` → `answerSignal` (relevant because the DeepClaude handlers
  test this guard without the `data.content` conjunct);
* everything else (including JSON parse failures, which every handler
  catches and logs) → `other`. -/
inductive UpstreamEvent where
  | thinking (s : String) : UpstreamEvent
  | answer (s : String) : UpstreamEvent
  | answerSignal : UpstreamEvent
  | other : UpstreamEvent
deriving DecidableEq

/-- The parsed fields of an upstream JSON line that the handlers inspect. -/
structure UpstreamFields where
  etype : Option String
  contentType : Option String
  content : String
deriving DecidableEq

/-- Classification of a parsed upstream line, mirroring the shared guard
structure (`if (data.content_type === "thinking" && data.content) ...
else if (data.type === "answer" && ... data.content_type !== "thinking")`). -/
def classify (f : UpstreamFields) : UpstreamEvent :=
  if f.contentType = some "thinking" ∧ f.content ≠ "" then .thinking f.content
  else if f.etype = some "answer" ∧ f.contentType ≠ some "thinking" then
    (if f.content ≠ "" then .answer f.content else .answerSignal)
  else .other

/-- An event list is well formed when it only contains events the
classifier can produce: `thinking` events carry non-empty text. -/
def wfEvents (evs : List UpstreamEvent) : Bool :=
  evs.all fun e => match e with
    | .thinking s => s ≠ ""
    | _ => true

/-- Sanity: `classify` only produces well-formed events. -/
theorem classify_wf (f : UpstreamFields) : wfEvents [classify f] = true := by
  unfold classify wfEvents
  split
  · next h => simp [List.all, h.2]
  · split
    · split <;> simp [List.all]
    · simp [List.all]

/-! ## SSE line decoder

All streaming handlers decode upstream bodies with

```
buffer += text;
const lines = buffer.split("\n");
buffer = lines.pop() || "";
```

`splitNLP cs` returns the pair (complete newline-terminated lines with
the newline stripped, trailing fragment) — i.e. exactly
(`lines` after the `pop`, the popped `buffer`) for the character
sequence `cs`.  JavaScript `split("\n")` on the single-character
separator splits at every `'\n'` keeping empty pieces, and `pop`
removes the final piece, so this is the same computation. -/
def splitStep (c : Char) (r : List (List Char) × List Char) :
    List (List Char) × List Char :=
  if c = '\n' then ([] :: r.1, r.2)
  else
    match r with
    | ([], fr) => ([], c :: fr)
    | (l :: ls, fr) => ((c :: l) :: ls, fr)

def splitNLP : List Char → List (List Char) × List Char
  | [] => ([], [])
  | c :: cs => splitStep c (splitNLP cs)

theorem splitStep_newline (r : List (List Char) × List Char) :
    splitStep '\n' r = ([] :: r.1, r.2) := by
  simp [splitStep]

theorem splitStep_other_nil {c : Char} (hc : c ≠ '\n') (fr : List Char) :
    splitStep c ([], fr) = ([], c :: fr) := by
  simp [splitStep, hc]

theorem splitStep_other_cons {c : Char} (hc : c ≠ '\n') (l : List Char)
    (ls : List (List Char)) (fr : List Char) :
    splitStep c (l :: ls, fr) = ((c :: l) :: ls, fr) := by
  simp [splitStep, hc]

/-- Feeding `a ++ b` equals feeding `a`, then feeding the retained
fragment of `a` glued onto `b` — the fragment-retention step of the
decoder loses nothing. -/
theorem splitNLP_append (a b : List Char) :
    splitNLP (a ++ b) =
      ((splitNLP a).1 ++ (splitNLP ((splitNLP a).2 ++ b)).1,
       (splitNLP ((splitNLP a).2 ++ b)).2) := by
  induction a with
  | nil => simp [splitNLP]
  | cons c cs ih =>
    by_cases hc : c = '\n'
    · subst hc
      simp only [List.cons_append, List.append_eq, splitNLP,
        splitStep_newline, ih, List.cons_append]
    · rcases hcs : splitNLP cs with ⟨p1, fr⟩
      rcases p1 with _ | ⟨l, ls⟩
      · -- no complete line in `cs`: the char joins the fragment
        simp only [hcs] at ih
        simp only [List.cons_append, List.append_eq, splitNLP, ih, hcs,
          List.nil_append, splitStep_other_nil hc, Prod.mk.eta]
      · simp only [hcs] at ih
        simp only [List.cons_append, List.append_eq, splitNLP, ih, hcs,
          List.cons_append, splitStep_other_cons hc]

/-- The decoder state machine over successive delivered chunks: the
retained fragment is glued in front of each chunk before splitting.
Returns (all complete lines produced, final retained fragment). -/
def runDecoder (buf : List Char) : List (List Char) → List (List Char) × List Char
  | [] => ([], buf)
  | ch :: rest =>
    let fed := splitNLP (buf ++ ch)
    let rec' := runDecoder fed.2 rest
    (fed.1 ++ rec'.1, rec'.2)

theorem runDecoder_eq (chunks : List (List Char)) (buf : List Char)
    (h : chunks ≠ []) :
    runDecoder buf chunks = splitNLP (buf ++ chunks.flatten) := by
  induction chunks generalizing buf with
  | nil => exact absurd rfl h
  | cons ch rest ih =>
    rcases rest with _ | ⟨ch2, rest2⟩
    · simp [runDecoder]
    · have hne : ch2 :: rest2 ≠ [] := by simp
      have hstep : runDecoder buf (ch :: ch2 :: rest2) =
          ((splitNLP (buf ++ ch)).1 ++
             (runDecoder (splitNLP (buf ++ ch)).2 (ch2 :: rest2)).1,
           (runDecoder (splitNLP (buf ++ ch)).2 (ch2 :: rest2)).2) := rfl
      have hflat : buf ++ (ch :: ch2 :: rest2).flatten =
          (buf ++ ch) ++ (ch2 :: rest2).flatten := by
        simp [List.append_assoc]
      rw [hstep, ih _ hne, hflat,
        splitNLP_append (buf ++ ch) ((ch2 :: rest2).flatten)]

/-- Claim C4, amended form: at the level of the decoded character
stream, every way of splitting the input into successive delivered
chunks yields exactly the same complete-line sequence (and retained
fragment) as the unsplit input. -/
theorem lineDecoder_split_invariant (chunks : List (List Char)) :
    runDecoder [] chunks = runDecoder [] [chunks.flatten] := by
  rcases h : chunks with _ | ⟨ch, rest⟩
  · simp [runDecoder, splitNLP]
  · rw [← h, runDecoder_eq chunks [] (by simp [h]),
        runDecoder_eq [chunks.flatten] [] (by simp)]
    simp

/-! ## Byte-level decoding

The handlers call `decoder.decode(chunk)` (a WHATWG `TextDecoder` for
UTF-8) on each delivered chunk *without* `stream: true`, so every call
flushes: a chunk that ends in the middle of a multi-byte sequence, and
a chunk that starts with the orphaned continuation bytes, both decode
to U+FFFD replacement characters.  `utf8Decode` is the WHATWG UTF-8
decoder (replacement mode, end-of-input flush). -/

/-- U+FFFD replacement character. -/
def replChar : Char := Char.ofNat 0xFFFD

/-- Is `b` a UTF-8 continuation byte (0x80–0xBF)? -/
def isCont (b : Nat) : Bool := decide (0x80 ≤ b ∧ b ≤ 0xBF)

/-- Valid range of the first continuation byte after a three-byte lead
(WHATWG: lead 0xE0 needs 0xA0–0xBF, lead 0xED needs 0x80–0x9F). -/
def cont3ok (b c1 : Nat) : Bool :=
  if b = 0xE0 then decide (0xA0 ≤ c1 ∧ c1 ≤ 0xBF)
  else if b = 0xED then decide (0x80 ≤ c1 ∧ c1 ≤ 0x9F)
  else isCont c1

/-- Valid range of the first continuation byte after a four-byte lead
(WHATWG: lead 0xF0 needs 0x90–0xBF, lead 0xF4 needs 0x80–0x8F). -/
def cont4ok (b c1 : Nat) : Bool :=
  if b = 0xF0 then decide (0x90 ≤ c1 ∧ c1 ≤ 0xBF)
  else if b = 0xF4 then decide (0x80 ≤ c1 ∧ c1 ≤ 0x8F)
  else isCont c1

/-- WHATWG UTF-8 decode in replacement mode of a complete input (one
`TextDecoder.decode(chunk)` call without `stream: true`): invalid bytes
become U+FFFD and are re-processed per the specification; a truncated
sequence at end of input yields one U+FFFD. -/
def utf8Decode : List Nat → List Char
  | [] => []
  | b :: bs =>
    if b ≤ 0x7F then Char.ofNat b :: utf8Decode bs
    else if b < 0xC2 then replChar :: utf8Decode bs
    else if b ≤ 0xDF then
      match bs with
      | [] => [replChar]
      | c1 :: rest =>
        if isCont c1 then
          Char.ofNat ((b - 0xC0) * 64 + (c1 - 0x80)) :: utf8Decode rest
        else replChar :: utf8Decode (c1 :: rest)
    else if b ≤ 0xEF then
      match bs with
      | [] => [replChar]
      | c1 :: rest1 =>
        if cont3ok b c1 then
          match rest1 with
          | [] => [replChar]
          | c2 :: rest2 =>
            if isCont c2 then
              Char.ofNat ((b - 0xE0) * 4096 + (c1 - 0x80) * 64 + (c2 - 0x80)) ::
                utf8Decode rest2
            else replChar :: utf8Decode (c2 :: rest2)
        else replChar :: utf8Decode (c1 :: rest1)
    else if b ≤ 0xF4 then
      match bs with
      | [] => [replChar]
      | c1 :: rest1 =>
        if cont4ok b c1 then
          match rest1 with
          | [] => [replChar]
          | c2 :: rest2 =>
            if isCont c2 then
              match rest2 with
              | [] => [replChar]
              | c3 :: rest3 =>
                if isCont c3 then
                  Char.ofNat ((b - 0xF0) * 262144 + (c1 - 0x80) * 4096 +
                      (c2 - 0x80) * 64 + (c3 - 0x80)) :: utf8Decode rest3
                else replChar :: utf8Decode (c3 :: rest3)
            else replChar :: utf8Decode (c2 :: rest2)
        else replChar :: utf8Decode (c1 :: rest1)
    else replChar :: utf8Decode bs

/-- The byte-level decoder loop of the streaming handlers: each
delivered byte chunk is decoded with a fresh (non-streaming)
`TextDecoder.decode` call, appended to the retained fragment and split
on newlines. -/
def runDecoderBytes (buf : List Char) : List (List Nat) → List (List Char) × List Char
  | [] => ([], buf)
  | ch :: rest =>
    let fed := splitNLP (buf ++ utf8Decode ch)
    let r := runDecoderBytes fed.2 rest
    (fed.1 ++ r.1, r.2)

/-- Counterexample to claim C4 as stated: splitting the byte stream of
the line `"思\n"` (UTF-8 `E6 80 9D 0A`) between its first and second
byte corrupts the decoded line into three U+FFFD replacement
characters, so the split input does *not* decode to the same line
sequence as the unsplit input. -/
theorem lineDecoder_byteSplit_cex :
    (runDecoderBytes [] [[0xE6], [0x80, 0x9D, 0x0A]]).1 =
        [[replChar, replChar, replChar]] ∧
      (runDecoderBytes [] [[0xE6, 0x80, 0x9D, 0x0A]]).1 = [['思']] ∧
      (runDecoderBytes [] [[0xE6], [0x80, 0x9D, 0x0A]]).1 ≠
        (runDecoderBytes [] [[0xE6, 0x80, 0x9D, 0x0A]]).1 := by
  refine ⟨by decide, by decide, by decide⟩

/-! ## Claude upstream events

Lines of the answering provider's stream are parsed and a text delta is
extracted when `data.type === "content_block_delta" &&
data.delta.type === "text_delta"`; every other line is ignored. -/
inductive ClaudeEvent where
  | textDelta (s : String) : ClaudeEvent
  | otherEvent : ClaudeEvent
deriving DecidableEq

/-- The forwarded text deltas of a Claude stream, in order. -/
def claudeDeltaTexts (evs : List ClaudeEvent) : List String :=
  evs.filterMap fun e => match e with
    | .textDelta s => some s
    | .otherEvent => none

/-- JavaScript `+=` accumulation of a list of strings. -/
def concatStrings (l : List String) : String := l.foldl (· ++ ·) ""

/-! ## Streaming phase composer of the module DeepSeek handler

`src/unnamed/part_000`, `handleDeepSeekRequest`, lines 410-572.  State:
`isFirstThinking` (`first`) and `isInThinking` (`inThink`).  On the
first thinking event the open marker is emitted and `inThink` becomes
true; every thinking event forwards its text as its own chunk; the
first answer event while `inThink` emits the close marker first; at
stream end a pending `inThink` emits the close marker; then the
terminal `finish_reason:"stop"` chunk and the `[DONE]` sentinel. -/
def dsGo : Bool → Bool → List UpstreamEvent → List Chunk
  | _, inThink, [] =>
      (if inThink then [Chunk.thinkClose] else []) ++ [Chunk.finish, Chunk.done]
  | first, inThink, .thinking s :: rest =>
      if first then Chunk.thinkOpen :: Chunk.thinkDelta s :: dsGo false true rest
      else Chunk.thinkDelta s :: dsGo first inThink rest
  | first, inThink, .answer s :: rest =>
      if inThink then Chunk.thinkClose :: Chunk.answerDelta s :: dsGo first false rest
      else Chunk.answerDelta s :: dsGo first inThink rest
  | first, inThink, .answerSignal :: rest => dsGo first inThink rest
  | first, inThink, .other :: rest => dsGo first inThink rest

/-- The complete outbound chunk sequence of one streaming session of
the module DeepSeek handler, given the classified upstream events. -/
def dsRun (evs : List UpstreamEvent) : List Chunk :=
  Chunk.role :: dsGo true false evs

/-! ## Streaming loop of the monolithic DeepSeek handler

`src/api-server.js`, `handleDeepSeekRequest`, lines 699-818.  Thinking
content is *accumulated* (`thinkingContent += data.content`), nothing
is forwarded for it; on the first answer event, if the accumulated
thinking is non-empty after trimming, one combined
`<思考过程>…</思考过程>` block chunk is emitted before the answer
delta; at stream end a never-emitted non-empty block is flushed. -/
def apiDsGo : String → Bool → List UpstreamEvent → List Chunk
  | acc, hasOut, [] =>
      (if ¬hasOut ∧ jsTrim acc ≠ "" then [Chunk.combined acc] else []) ++
        [Chunk.finish, Chunk.done]
  | acc, hasOut, .thinking s :: rest => apiDsGo (acc ++ s) hasOut rest
  | acc, hasOut, .answer s :: rest =>
      if ¬hasOut ∧ jsTrim acc ≠ "" then
        Chunk.combined acc :: Chunk.answerDelta s :: apiDsGo acc true rest
      else Chunk.answerDelta s :: apiDsGo acc hasOut rest
  | acc, hasOut, .answerSignal :: rest => apiDsGo acc hasOut rest
  | acc, hasOut, .other :: rest => apiDsGo acc hasOut rest

/-- The complete outbound chunk sequence of one streaming session of
the monolithic DeepSeek handler. -/
def apiDsRun (evs : List UpstreamEvent) : List Chunk :=
  Chunk.role :: apiDsGo "" false evs

/-! ## Streaming flow of the module DeepClaude handler

`src/models/deepclaude-model.js`, `handleDeepClaudeRequest`, lines
509-776.  Phase 1 consumes the reasoning stream: thinking deltas are
accumulated into `completeThinking` and forwarded live (the open marker
before the first one); the first event with `type === "answer"` and
`content_type !== "thinking"` — with or without content — ends the
phase.  Then the close marker is emitted if the open marker was; then,
if `completeThinking.length > 0`, the Claude stream's text deltas are
forwarded and the terminal chunks emitted, otherwise an `event: error`
frame is written. -/
def dcPhase1 : Bool → String → List UpstreamEvent → List Chunk × Bool × String
  | inThink, acc, [] => ([], inThink, acc)
  | inThink, acc, .thinking s :: rest =>
      let r := dcPhase1 true (acc ++ s) rest
      ((if inThink then [Chunk.thinkDelta s]
        else [Chunk.thinkOpen, Chunk.thinkDelta s]) ++ r.1, r.2)
  | inThink, acc, .answer _ :: _ => ([], inThink, acc)
  | inThink, acc, .answerSignal :: _ => ([], inThink, acc)
  | inThink, acc, .other :: rest => dcPhase1 inThink acc rest

/-- The complete outbound chunk sequence of one streaming session of
the module DeepClaude handler, given the classified reasoning events
and the Claude (answering) stream events. -/
def dcStreamRun (evs : List UpstreamEvent) (cevs : List ClaudeEvent) : List Chunk :=
  let p := dcPhase1 false "" evs
  Chunk.role :: p.1 ++ (if p.2.1 then [Chunk.thinkClose] else []) ++
    (if p.2.2.length > 0 then
      (claudeDeltaTexts cevs).map Chunk.answerDelta ++ [Chunk.finish, Chunk.done]
     else [Chunk.errorFrame "未收集到有效思考内容"])

/-! ## Marker-bracketing invariant (claim C1) -/

/-- Is this chunk the synthetic thinking-open marker chunk? -/
def isOpenChunk : Chunk → Bool
  | .thinkOpen => true
  | _ => false

/-- Is this chunk the synthetic thinking-close marker chunk? -/
def isCloseChunk : Chunk → Bool
  | .thinkClose => true
  | _ => false

def countOpen (l : List Chunk) : Nat := l.countP isOpenChunk

def countClose (l : List Chunk) : Nat := l.countP isCloseChunk

/-- No forwarded answer delta occurs in the list. -/
def noAnswerDelta (l : List Chunk) : Prop := ∀ c ∈ l, ∀ s, c ≠ Chunk.answerDelta s

/-- The bracketing invariant of claim C1 on an outbound chunk
sequence: the open marker is emitted at most once; the close marker is
only emitted if the open marker was; and if the open marker is
emitted, exactly one close marker follows it, no answer delta is
forwarded between the two, and a terminal `finish_reason:"stop"` chunk
occurs after the close marker. -/
def markerProperty (out : List Chunk) : Prop :=
  countOpen out ≤ 1 ∧
  (countOpen out = 0 → countClose out = 0) ∧
  (countOpen out = 1 →
    countClose out = 1 ∧
    ∃ pre mid post,
      out = pre ++ Chunk.thinkOpen :: (mid ++ Chunk.thinkClose :: post) ∧
        noAnswerDelta mid ∧ Chunk.finish ∈ post)

theorem countOpen_cons (c : Chunk) (l : List Chunk) :
    countOpen (c :: l) = countOpen l + (if isOpenChunk c then 1 else 0) := by
  simp [countOpen, List.countP_cons]

theorem countClose_cons (c : Chunk) (l : List Chunk) :
    countClose (c :: l) = countClose l + (if isCloseChunk c then 1 else 0) := by
  simp [countClose, List.countP_cons]

theorem countOpen_append (a b : List Chunk) :
    countOpen (a ++ b) = countOpen a + countOpen b := by
  simp [countOpen, List.countP_append]

theorem countClose_append (a b : List Chunk) :
    countClose (a ++ b) = countClose a + countClose b := by
  simp [countClose, List.countP_append]

theorem countOpen_nil : countOpen [] = 0 := rfl

theorem countClose_nil : countClose [] = 0 := rfl

/-- A list of chunks that are all live thinking deltas. -/
def onlyThinkDeltas (l : List Chunk) : Prop :=
  ∀ c ∈ l, ∃ s, c = Chunk.thinkDelta s

theorem noAnswerDelta_of_onlyThink {l : List Chunk} (h : onlyThinkDeltas l) :
    noAnswerDelta l := by
  intro c hc s
  obtain ⟨t, rfl⟩ := h c hc
  simp

theorem countOpen_eq_zero_of_onlyThink {l : List Chunk} (h : onlyThinkDeltas l) :
    countOpen l = 0 := by
  simp only [countOpen, List.countP_eq_zero]
  intro c hc
  obtain ⟨t, rfl⟩ := h c hc
  simp [isOpenChunk]

theorem countClose_eq_zero_of_onlyThink {l : List Chunk} (h : onlyThinkDeltas l) :
    countClose l = 0 := by
  simp only [countClose, List.countP_eq_zero]
  intro c hc
  obtain ⟨t, rfl⟩ := h c hc
  simp [isCloseChunk]

theorem countOpen_map_answer (xs : List String) :
    countOpen (xs.map Chunk.answerDelta) = 0 := by
  simp only [countOpen, List.countP_eq_zero]
  intro c hc
  obtain ⟨t, _, rfl⟩ := List.mem_map.mp hc
  simp [isOpenChunk]

theorem countClose_map_answer (xs : List String) :
    countClose (xs.map Chunk.answerDelta) = 0 := by
  simp only [countClose, List.countP_eq_zero]
  intro c hc
  obtain ⟨t, _, rfl⟩ := List.mem_map.mp hc
  simp [isCloseChunk]

/-- After the thinking phase is over (`isFirstThinking = false`,
`isInThinking = false`), the module DeepSeek composer emits no marker
chunk and always reaches the terminal stop chunk. -/
theorem dsGo_closed (evs : List UpstreamEvent) :
    countOpen (dsGo false false evs) = 0 ∧
      countClose (dsGo false false evs) = 0 ∧
      Chunk.finish ∈ dsGo false false evs := by
  induction evs with
  | nil => refine ⟨by decide, by decide, by decide⟩
  | cons e rest ih =>
    rcases e with s | s | _ | _
    · simpa [dsGo, countOpen_cons, countClose_cons, isOpenChunk, isCloseChunk]
        using ih
    · simpa [dsGo, countOpen_cons, countClose_cons, isOpenChunk, isCloseChunk]
        using ih
    · simpa [dsGo] using ih
    · simpa [dsGo] using ih

/-- While in the thinking phase, the module DeepSeek composer emits
some thinking deltas, then exactly one close marker, then a marker-free
tail containing the terminal stop chunk. -/
theorem dsGo_thinking (evs : List UpstreamEvent) :
    ∃ mid post, dsGo false true evs = mid ++ Chunk.thinkClose :: post ∧
      onlyThinkDeltas mid ∧ countOpen post = 0 ∧ countClose post = 0 ∧
      Chunk.finish ∈ post := by
  induction evs with
  | nil =>
    refine ⟨[], [Chunk.finish, Chunk.done], by decide, ?_, by decide, by decide,
      by decide⟩
    intro c hc
    simp at hc
  | cons e rest ih =>
    rcases e with s | s | _ | _
    · obtain ⟨mid, post, heq, honly, hco, hcc, hfin⟩ := ih
      refine ⟨Chunk.thinkDelta s :: mid, post, ?_, ?_, hco, hcc, hfin⟩
      · simp [dsGo, heq]
      · intro c hc
        rcases List.mem_cons.mp hc with rfl | hmem
        · exact ⟨s, rfl⟩
        · exact honly c hmem
    · obtain ⟨hco, hcc, hfin⟩ := dsGo_closed rest
      refine ⟨[], Chunk.answerDelta s :: dsGo false false rest, by simp [dsGo],
        ?_, ?_, ?_, ?_⟩
      · intro c hc
        simp at hc
      · simp [countOpen_cons, isOpenChunk, hco]
      · simp [countClose_cons, isCloseChunk, hcc]
      · exact List.mem_cons_of_mem _ hfin
    · simpa [dsGo] using ih
    · simpa [dsGo] using ih

/-- From the initial state, the module DeepSeek composer either never
emits a marker, or emits exactly one well-bracketed open/close pair. -/
theorem dsGo_initial (evs : List UpstreamEvent) :
    (countOpen (dsGo true false evs) = 0 ∧ countClose (dsGo true false evs) = 0) ∨
    (∃ pre mid post,
      dsGo true false evs = pre ++ Chunk.thinkOpen :: (mid ++ Chunk.thinkClose :: post) ∧
        countOpen pre = 0 ∧ countClose pre = 0 ∧ onlyThinkDeltas mid ∧
        countOpen post = 0 ∧ countClose post = 0 ∧ Chunk.finish ∈ post) := by
  induction evs with
  | nil => exact Or.inl ⟨by decide, by decide⟩
  | cons e rest ih =>
    rcases e with s | s | _ | _
    · obtain ⟨mid, post, heq, honly, hco, hcc, hfin⟩ := dsGo_thinking rest
      refine Or.inr ⟨[], Chunk.thinkDelta s :: mid, post, ?_, by decide, by decide,
        ?_, hco, hcc, hfin⟩
      · simp [dsGo, heq]
      · intro c hc
        rcases List.mem_cons.mp hc with rfl | hmem
        · exact ⟨s, rfl⟩
        · exact honly c hmem
    · rcases ih with ⟨hco, hcc⟩ | ⟨pre, mid, post, heq, hpo, hpc, honly, hco, hcc, hfin⟩
      · exact Or.inl ⟨by simp [dsGo, countOpen_cons, isOpenChunk, hco],
          by simp [dsGo, countClose_cons, isCloseChunk, hcc]⟩
      · refine Or.inr ⟨Chunk.answerDelta s :: pre, mid, post, ?_,
          by simp [countOpen_cons, isOpenChunk, hpo],
          by simp [countClose_cons, isCloseChunk, hpc], honly, hco, hcc, hfin⟩
        simp [dsGo, heq]
    · simpa [dsGo] using ih
    · simpa [dsGo] using ih

theorem length_pos_of_ne_empty {s : String} (h : s ≠ "") : 0 < s.length := by
  rcases s with ⟨data⟩
  cases data with
  | nil => exact absurd (by decide) h
  | cons c cs => simp [String.length]

/-- Phase 1 of the module DeepClaude handler never shrinks the
accumulated thinking text. -/
theorem dcPhase1_acc_mono (evs : List UpstreamEvent) :
    ∀ inThink acc, acc.length ≤ (dcPhase1 inThink acc evs).2.2.length := by
  induction evs with
  | nil => intro inThink acc; simp [dcPhase1]
  | cons e rest ih =>
    intro inThink acc
    rcases e with s | s | _ | _
    · calc acc.length ≤ (acc ++ s).length := by
            simp [String.length_append]
        _ ≤ (dcPhase1 true (acc ++ s) rest).2.2.length := ih true (acc ++ s)
        _ = (dcPhase1 inThink acc (UpstreamEvent.thinking s :: rest)).2.2.length := by
            simp [dcPhase1]
    · simp [dcPhase1]
    · simp [dcPhase1]
    · simpa [dcPhase1] using ih inThink acc

/-- Once in the thinking phase, phase 1 emits only live thinking deltas
and stays in the thinking phase. -/
theorem dcPhase1_inThink (evs : List UpstreamEvent) :
    ∀ acc, onlyThinkDeltas (dcPhase1 true acc evs).1 ∧
      (dcPhase1 true acc evs).2.1 = true := by
  induction evs with
  | nil =>
    intro acc
    exact ⟨fun c hc => by simp [dcPhase1] at hc, rfl⟩
  | cons e rest ih =>
    intro acc
    rcases e with s | s | _ | _
    · refine ⟨?_, by simpa [dcPhase1] using (ih (acc ++ s)).2⟩
      intro c hc
      simp only [dcPhase1, if_pos, List.cons_append, List.nil_append] at hc
      rcases List.mem_cons.mp hc with rfl | hmem
      · exact ⟨s, rfl⟩
      · exact (ih (acc ++ s)).1 c hmem
    · exact ⟨fun c hc => by simp [dcPhase1] at hc, rfl⟩
    · exact ⟨fun c hc => by simp [dcPhase1] at hc, rfl⟩
    · simpa [dcPhase1] using ih acc

/-- From the initial state, phase 1 either emits nothing and stays out
of the thinking phase, or its output starts with the open marker
followed by live thinking deltas, it ends in the thinking phase, and
(on well-formed event lists) the accumulated thinking text is
non-empty. -/
theorem dcPhase1_initial (evs : List UpstreamEvent) :
    ∀ acc,
      (∃ acc', dcPhase1 false acc evs = ([], false, acc')) ∨
      (∃ s mid acc',
        dcPhase1 false acc evs = (Chunk.thinkOpen :: Chunk.thinkDelta s :: mid,
          true, acc') ∧
          onlyThinkDeltas mid ∧ (acc ++ s).length ≤ acc'.length ∧
          (wfEvents evs = true → s ≠ "")) := by
  induction evs with
  | nil => intro acc; exact Or.inl ⟨acc, rfl⟩
  | cons e rest ih =>
    intro acc
    rcases e with s | s | _ | _
    · refine Or.inr ⟨s, (dcPhase1 true (acc ++ s) rest).1,
        (dcPhase1 true (acc ++ s) rest).2.2, ?_, (dcPhase1_inThink rest (acc ++ s)).1,
        dcPhase1_acc_mono rest true (acc ++ s), ?_⟩
      · simp only [dcPhase1, List.cons_append, List.nil_append, if_neg
          Bool.false_ne_true]
        rw [Prod.mk.injEq]
        exact ⟨by simp, Prod.ext ((dcPhase1_inThink rest (acc ++ s)).2) rfl⟩
      · intro hwf
        simp [wfEvents] at hwf
        exact hwf.1
    · exact Or.inl ⟨acc, rfl⟩
    · exact Or.inl ⟨acc, rfl⟩
    · rcases ih acc with ⟨acc', h⟩ | ⟨s, mid, acc', heq, honly, hlen, hwf⟩
      · exact Or.inl ⟨acc', by simpa [dcPhase1] using h⟩
      · refine Or.inr ⟨s, mid, acc', by simpa [dcPhase1] using heq, honly, hlen, ?_⟩
        intro h
        apply hwf
        simpa [wfEvents] using h

theorem markerProperty_dsRun (evs : List UpstreamEvent) :
    markerProperty (dsRun evs) := by
  rcases dsGo_initial evs with ⟨hco, hcc⟩ |
    ⟨pre, mid, post, heq, hpo, hpc, honly, hco, hcc, hfin⟩
  · have h0 : countOpen (dsRun evs) = 0 := by
      simp [dsRun, countOpen_cons, isOpenChunk, hco]
    have h0' : countClose (dsRun evs) = 0 := by
      simp [dsRun, countClose_cons, isCloseChunk, hcc]
    exact ⟨by omega, fun _ => h0', fun h1 => absurd (h0 ▸ h1) (by omega)⟩
  · have h1 : countOpen (dsRun evs) = 1 := by
      simp [dsRun, heq, countOpen_cons, countOpen_append, isOpenChunk, hpo, hco,
        countOpen_eq_zero_of_onlyThink honly]
    have h1' : countClose (dsRun evs) = 1 := by
      simp [dsRun, heq, countClose_cons, countClose_append, isCloseChunk, hpc, hcc,
        countClose_eq_zero_of_onlyThink honly]
    refine ⟨by omega, fun h0 => absurd (h1 ▸ h0) (by omega), fun _ => ⟨h1', ?_⟩⟩
    refine ⟨Chunk.role :: pre, mid, post, ?_, noAnswerDelta_of_onlyThink honly, hfin⟩
    simp [dsRun, heq]

theorem markerProperty_dcStreamRun (evs : List UpstreamEvent)
    (cevs : List ClaudeEvent) (hwf : wfEvents evs = true) :
    markerProperty (dcStreamRun evs cevs) := by
  rcases dcPhase1_initial evs "" with ⟨acc', h⟩ |
    ⟨s, mid, acc', heq, honly, hlen, hwfs⟩
  · have hred : dcStreamRun evs cevs =
        Chunk.role ::
          (if acc'.length > 0 then
            (claudeDeltaTexts cevs).map Chunk.answerDelta ++
              [Chunk.finish, Chunk.done]
           else [Chunk.errorFrame "未收集到有效思考内容"]) := by
      simp [dcStreamRun, h]
    have h0 : countOpen (dcStreamRun evs cevs) = 0 ∧
        countClose (dcStreamRun evs cevs) = 0 := by
      rw [hred]
      by_cases hl : acc'.length > 0
      · simp [hl, countOpen_cons, countClose_cons, countOpen_append,
          countClose_append, countOpen_map_answer, countClose_map_answer,
          isOpenChunk, isCloseChunk, countOpen, countClose]
      · simp [hl, countOpen_cons, countClose_cons, isOpenChunk, isCloseChunk,
          countOpen, countClose]
    exact ⟨by omega, fun _ => h0.2, fun h1 => absurd (h0.1 ▸ h1) (by omega)⟩
  · have hs : s ≠ "" := hwfs hwf
    have hpos : 0 < acc'.length := by
      have h1 : ("" ++ s).length ≤ acc'.length := hlen
      have h2 : 0 < s.length := length_pos_of_ne_empty hs
      have h3 : ("" ++ s).length = s.length := by
        simp [String.length_append]
      omega
    have hout : dcStreamRun evs cevs =
        (Chunk.role :: []) ++ Chunk.thinkOpen ::
          ((Chunk.thinkDelta s :: mid) ++ Chunk.thinkClose ::
            ((claudeDeltaTexts cevs).map Chunk.answerDelta ++
              [Chunk.finish, Chunk.done])) := by
      simp [dcStreamRun, heq, hpos]
    have honly' : onlyThinkDeltas (Chunk.thinkDelta s :: mid) := by
      intro c hc
      rcases List.mem_cons.mp hc with rfl | hmem
      · exact ⟨s, rfl⟩
      · exact honly c hmem
    have hmid_o : countOpen mid = 0 := countOpen_eq_zero_of_onlyThink honly
    have hmid_c : countClose mid = 0 := countClose_eq_zero_of_onlyThink honly
    have hmap_o : countOpen ((claudeDeltaTexts cevs).map Chunk.answerDelta) = 0 :=
      countOpen_map_answer _
    have hmap_c : countClose ((claudeDeltaTexts cevs).map Chunk.answerDelta) = 0 :=
      countClose_map_answer _
    have h1 : countOpen (dcStreamRun evs cevs) = 1 := by
      rw [hout]
      simp only [countOpen_append, countOpen_cons, countOpen_nil, hmid_o, hmap_o,
        isOpenChunk]
      simp
    have h1' : countClose (dcStreamRun evs cevs) = 1 := by
      rw [hout]
      simp only [countClose_append, countClose_cons, countClose_nil, hmid_c,
        hmap_c, isCloseChunk]
      simp
    refine ⟨by omega, fun h0 => absurd (h1 ▸ h0) (by omega), fun _ => ⟨h1', ?_⟩⟩
    refine ⟨Chunk.role :: [], Chunk.thinkDelta s :: mid,
      (claudeDeltaTexts cevs).map Chunk.answerDelta ++ [Chunk.finish, Chunk.done],
      hout, noAnswerDelta_of_onlyThink honly', ?_⟩
    exact List.mem_append.mpr (Or.inr (by simp))

/-- **Claim C1.**  For every streaming session (the module DeepSeek
handler, and the module DeepClaude handler over both of its upstream
streams) and every well-formed sequence of classified upstream events:
the thinking-open marker chunk is emitted at most once; a close marker
is only ever emitted after an open marker; and when the open marker is
emitted, exactly one thinking-close marker chunk is emitted after it,
with no Answer delta forwarded between the two markers, and a terminal
`finish_reason:"stop"` chunk after the close marker. -/
theorem markers_bracketing (evs : List UpstreamEvent) (cevs : List ClaudeEvent)
    (hwf : wfEvents evs = true) :
    markerProperty (dsRun evs) ∧ markerProperty (dcStreamRun evs cevs) :=
  ⟨markerProperty_dsRun evs, markerProperty_dcStreamRun evs cevs hwf⟩

/-- Witness for C1 at the concrete session `Thinking "a", Answer "x"`
with one Claude delta `"y"`. -/
theorem markers_bracketing_witness :
    wfEvents [UpstreamEvent.thinking "a", UpstreamEvent.answer "x"] = true ∧
      markerProperty (dsRun [UpstreamEvent.thinking "a", UpstreamEvent.answer "x"]) ∧
      markerProperty (dcStreamRun [UpstreamEvent.thinking "a", UpstreamEvent.answer "x"]
        [ClaudeEvent.textDelta "y"]) :=
  ⟨by decide,
   (markers_bracketing [UpstreamEvent.thinking "a", UpstreamEvent.answer "x"]
      [ClaudeEvent.textDelta "y"] (by decide)).1,
   (markers_bracketing [UpstreamEvent.thinking "a", UpstreamEvent.answer "x"]
      [ClaudeEvent.textDelta "y"] (by decide)).2⟩

/-! ## Claim C2: the three-thinking-then-answer scenario -/

/-- **Claim C2, amended.**  On the module DeepSeek handler
(`src/unnamed/part_000`), the upstream session `Thinking "a"`,
`Thinking "b"`, `Thinking "c"`, `Answer "x"`, end-of-stream produces
exactly: role chunk, open marker, `"a"`, `"b"`, `"c"` as three separate
live chunks, close marker, `"x"`, terminal stop, `[DONE]` — so the
delta-content sequence is exactly open, `"a"`, `"b"`, `"c"`, close,
`"x"`. -/
theorem dsRun_scenario_abc_x :
    dsRun [UpstreamEvent.thinking "a", UpstreamEvent.thinking "b",
        UpstreamEvent.thinking "c", UpstreamEvent.answer "x"] =
      [Chunk.role, Chunk.thinkOpen, Chunk.thinkDelta "a", Chunk.thinkDelta "b",
        Chunk.thinkDelta "c", Chunk.thinkClose, Chunk.answerDelta "x",
        Chunk.finish, Chunk.done] ∧
    deltaContents (dsRun [UpstreamEvent.thinking "a", UpstreamEvent.thinking "b",
        UpstreamEvent.thinking "c", UpstreamEvent.answer "x"]) =
      ["<思考过程>\n", "a", "b", "c", "\n</思考过程>\n\n", "x"] := by
  refine ⟨by decide, by decide⟩

/-- Counterexample to claim C2 as stated: the monolithic DeepSeek
handler (`src/api-server.js`) buffers the three thinking deltas and, on
this same upstream session, emits them as one combined
`<思考过程>…</思考过程>` block chunk before the answer delta — not as
the claimed live sequence. -/
theorem apiDsRun_scenario_abc_x_buffers :
    deltaContents (apiDsRun [UpstreamEvent.thinking "a", UpstreamEvent.thinking "b",
        UpstreamEvent.thinking "c", UpstreamEvent.answer "x"]) =
      ["<思考过程>\nabc\n</思考过程>\n\n", "x"] ∧
    deltaContents (apiDsRun [UpstreamEvent.thinking "a", UpstreamEvent.thinking "b",
        UpstreamEvent.thinking "c", UpstreamEvent.answer "x"]) ≠
      ["<思考过程>\n", "a", "b", "c", "\n</思考过程>\n\n", "x"] := by
  refine ⟨by decide, by decide⟩

/-! ## DeepClaude orchestration of the monolithic server (claims C3, C5)

`src/api-server.js`, `handleDeepClaudeRequest` lines 932-996:

* `createConversation` is called exactly once (line 942); a falsy
  result takes the fallback path (`handleDirectClaudeRequest`)
  immediately;
* then a `while (retryCount <= maxRetries && !thinking)` loop with
  `maxRetries = 2` calls `getDeepSeekThinking` up to three times
  (`retryCount` 0, 1, 2); `getDeepSeekThinking` catches all of its own
  errors and returns `null` (so the loop's `catch` branch is dead
  code); a falsy final result (`null` or `""`) takes the fallback path;
* a truthy result proceeds to the Claude call.

The i-th `createConversation` result (the code only ever consumes index
0) and the i-th `getDeepSeekThinking` result are passed as explicit
result streams. -/

inductive DeepClaudeOutcome where
  /-- the fallback path: `handleDirectClaudeRequest` -/
  | fallbackDirect : DeepClaudeOutcome
  /-- the hybrid path proceeds with this accumulated thinking text -/
  | hybridProceed (thinking : String) : DeepClaudeOutcome
deriving DecidableEq

structure OrchTrace where
  outcome : DeepClaudeOutcome
  /-- how many times `createConversation` was invoked -/
  bootstrapCalls : Nat
  /-- how many times `getDeepSeekThinking` was invoked -/
  thinkFetchCalls : Nat
deriving DecidableEq

/-- JavaScript truthiness of `getDeepSeekThinking`'s result
(`null` and `""` are falsy). -/
def truthyOpt : Option String → Bool
  | none => false
  | some s => s ≠ ""

def deepClaudeOrchestrate (convResults : Nat → String)
    (thinkResults : Nat → Option String) : OrchTrace :=
  if convResults 0 = "" then ⟨.fallbackDirect, 1, 0⟩
  else
    let t0 := thinkResults 0
    if truthyOpt t0 then ⟨.hybridProceed (t0.getD ""), 1, 1⟩
    else
      let t1 := thinkResults 1
      if truthyOpt t1 then ⟨.hybridProceed (t1.getD ""), 1, 2⟩
      else
        let t2 := thinkResults 2
        if truthyOpt t2 then ⟨.hybridProceed (t2.getD ""), 1, 3⟩
        else ⟨.fallbackDirect, 1, 3⟩

/-- `getDeepSeekThinking` (`src/api-server.js` lines 1459-1579):
collects thinking contents from the reasoning stream; the first
`type === "answer"` / `content_type !== "thinking"` event stops the
collection only if some thinking has already accumulated; the
accumulated text (possibly `""`) is returned. -/
def getDeepSeekThinkingCollect : String → List UpstreamEvent → String
  | acc, [] => acc
  | acc, .thinking s :: rest => getDeepSeekThinkingCollect (acc ++ s) rest
  | acc, .answer _ :: rest =>
      if acc ≠ "" then acc else getDeepSeekThinkingCollect acc rest
  | acc, .answerSignal :: rest =>
      if acc ≠ "" then acc else getDeepSeekThinkingCollect acc rest
  | acc, .other :: rest => getDeepSeekThinkingCollect acc rest

def getDeepSeekThinkingResult (evs : List UpstreamEvent) : String :=
  getDeepSeekThinkingCollect "" evs

/-- Does the event list contain no thinking event at all? -/
def noThinkingEvents (evs : List UpstreamEvent) : Bool :=
  evs.all fun e => match e with
    | .thinking _ => false
    | _ => true

theorem getDeepSeekThinking_empty {evs : List UpstreamEvent}
    (h : noThinkingEvents evs = true) : getDeepSeekThinkingResult evs = "" := by
  unfold getDeepSeekThinkingResult
  induction evs with
  | nil => rfl
  | cons e rest ih =>
    rcases e with s | s | _ | _
    · simp [noThinkingEvents] at h
    · have hr : noThinkingEvents rest = true := by
        simpa [noThinkingEvents] using h
      simpa [getDeepSeekThinkingCollect] using ih hr
    · have hr : noThinkingEvents rest = true := by
        simpa [noThinkingEvents] using h
      simpa [getDeepSeekThinkingCollect] using ih hr
    · have hr : noThinkingEvents rest = true := by
        simpa [noThinkingEvents] using h
      simpa [getDeepSeekThinkingCollect] using ih hr

/-- **Claim C3, amended.**  In the monolithic server
(`src/api-server.js`), when the reasoning stage completes with an empty
accumulated thinking text — every `getDeepSeekThinking` attempt reads a
stream with zero thinking events — the orchestrator takes the fallback
path (a direct answering-provider call) rather than reporting an error
to the caller or treating the empty thinking as valid. -/
theorem emptyReasoning_fallback_monolithic (convResults : Nat → String)
    (attemptEvents : Nat → List UpstreamEvent)
    (hconv : convResults 0 ≠ "")
    (hempty : ∀ i, noThinkingEvents (attemptEvents i) = true) :
    (deepClaudeOrchestrate convResults
        (fun i => some (getDeepSeekThinkingResult (attemptEvents i)))).outcome =
      DeepClaudeOutcome.fallbackDirect := by
  have h0 := getDeepSeekThinking_empty (hempty 0)
  have h1 := getDeepSeekThinking_empty (hempty 1)
  have h2 := getDeepSeekThinking_empty (hempty 2)
  simp [deepClaudeOrchestrate, hconv, truthyOpt, h0, h1, h2]

/-- Witness for C3 at a concrete reasoning stream consisting of a
single answer event and no thinking events. -/
theorem emptyReasoning_fallback_monolithic_witness :
    ((fun _ : Nat => "conv-1") 0 ≠ "") ∧
      (∀ i : Nat, noThinkingEvents ((fun _ => [UpstreamEvent.answer "hi"]) i) = true) ∧
      (deepClaudeOrchestrate (fun _ => "conv-1")
          (fun i => some (getDeepSeekThinkingResult
            ((fun _ => [UpstreamEvent.answer "hi"]) i)))).outcome =
        DeepClaudeOutcome.fallbackDirect :=
  ⟨by decide,
   fun _ => (by decide : noThinkingEvents [UpstreamEvent.answer "hi"] = true),
   emptyReasoning_fallback_monolithic (fun _ => "conv-1")
     (fun _ => [UpstreamEvent.answer "hi"]) (by decide)
     (fun _ => (by decide : noThinkingEvents [UpstreamEvent.answer "hi"] = true))⟩

/-- Counterexample to claim C3 as stated: the module DeepClaude handler
(`src/models/deepclaude-model.js` lines 767-771) reacts to an empty
accumulated thinking text by writing an `event: error` SSE frame to the
caller and ending the stream — no fallback direct-answer call is made
and no terminal stop chunk is emitted. -/
theorem dcModule_emptyThinking_error_cex :
    dcStreamRun [UpstreamEvent.answer "hi"] [] =
      [Chunk.role, Chunk.errorFrame "未收集到有效思考内容"] := by
  decide

/-- **Claim C5, amended.**  In the monolithic orchestrator
(`src/api-server.js` lines 932-996): the conversation-creation
bootstrap step is attempted exactly once and never retried — on a falsy
result the fallback path is taken immediately, with zero thinking
fetches; the retry-up-to-2 policy (at most 3 attempts, no backoff)
instead governs the `getDeepSeekThinking` step, each attempt issuing a
fresh reasoning request, and only after all three attempts return a
falsy result does the orchestrator fall back. -/
theorem bootstrap_once_thinkFetch_retried (convResults : Nat → String)
    (thinkResults : Nat → Option String) :
    (deepClaudeOrchestrate convResults thinkResults).bootstrapCalls = 1 ∧
    (deepClaudeOrchestrate convResults thinkResults).thinkFetchCalls ≤ 3 ∧
    (convResults 0 = "" →
      deepClaudeOrchestrate convResults thinkResults =
        ⟨DeepClaudeOutcome.fallbackDirect, 1, 0⟩) ∧
    (convResults 0 ≠ "" → truthyOpt (thinkResults 0) = false →
      truthyOpt (thinkResults 1) = false → truthyOpt (thinkResults 2) = false →
      deepClaudeOrchestrate convResults thinkResults =
        ⟨DeepClaudeOutcome.fallbackDirect, 1, 3⟩) := by
  unfold deepClaudeOrchestrate
  by_cases hc : convResults 0 = ""
  · simp [hc]
  · by_cases h0 : truthyOpt (thinkResults 0)
    · simp [hc, h0]
    · by_cases h1 : truthyOpt (thinkResults 1)
      · simp [hc, h0, h1]
      · by_cases h2 : truthyOpt (thinkResults 2)
        · simp [hc, h0, h1, h2]
        · simp [hc, h0, h1, h2]

/-- Witness for C5 with a failing bootstrap and, separately, with three
falsy thinking fetches. -/
theorem bootstrap_once_thinkFetch_retried_witness :
    ((fun _ : Nat => "") 0 = "") ∧
      deepClaudeOrchestrate (fun _ => "") (fun _ => some "t") =
        ⟨DeepClaudeOutcome.fallbackDirect, 1, 0⟩ ∧
      ((fun _ : Nat => "conv") 0 ≠ "") ∧
      deepClaudeOrchestrate (fun _ => "conv") (fun _ => none) =
        ⟨DeepClaudeOutcome.fallbackDirect, 1, 3⟩ :=
  ⟨rfl,
   (bootstrap_once_thinkFetch_retried (fun _ => "") (fun _ => some "t")).2.2.1 rfl,
   by decide,
   (bootstrap_once_thinkFetch_retried (fun _ => "conv") (fun _ => none)).2.2.2
     (by decide) rfl rfl rfl⟩

/-- Counterexample to claim C5 as stated: with a conversation-creation
result stream whose first attempt fails and whose second attempt would
succeed, the orchestrator takes the fallback path after a single
bootstrap call — conversation creation is never retried (the retry loop
wraps `getDeepSeekThinking`, not `createConversation`). -/
theorem bootstrap_retry_cex :
    deepClaudeOrchestrate (fun i => if i = 0 then "" else "conv-2")
        (fun _ => some "some thinking") =
      ⟨DeepClaudeOutcome.fallbackDirect, 1, 0⟩ := by
  decide

/-! ## Request validation and model routing (claims C6, C9)

`src/api-server.js`, `POST /v1/chat/completions` handler, lines
314-385, and the Claude model selection of `handleClaudeRequest`, lines
413-425. -/

/-- Does `pat` occur at the head of `l`? -/
def leadsWith : List Char → List Char → Bool
  | [], _ => true
  | _ :: _, [] => false
  | p :: ps, c :: cs => p = c && leadsWith ps cs

/-- Does `pat` occur as a contiguous segment of `l`?  (JavaScript
`String.prototype.includes` on the character lists.) -/
def hasSegment (pat : List Char) : List Char → Bool
  | [] => leadsWith pat []
  | c :: cs => leadsWith pat (c :: cs) || hasSegment pat cs

/-- JavaScript `s.includes(pat)`. -/
def jsIncludes (s pat : String) : Bool := hasSegment pat.data s.data

/-- JavaScript `s.toLowerCase()` (ASCII case folding, which is exact
for the model identifiers involved); modelled over the character list
so that it evaluates by kernel reduction. -/
def jsToLower (s : String) : String := ⟨s.data.map Char.toLower⟩

/-- The error body shape the server actually serializes: `message` and
`type` always; `param` and `code` only when the handler sets them. -/
structure ErrorBody where
  message : String
  errType : String
  param : Option String
  code : Option String
deriving DecidableEq

structure ChatMessage where
  role : String
  content : String
deriving DecidableEq

/-- A parsed `POST /v1/chat/completions` body (`model` is `""` when the
field is missing or empty — both are falsy in the handler's check;
message content is modelled in its string form). -/
structure ChatRequest where
  model : String
  messages : List ChatMessage
deriving DecidableEq

/-- 400 body for a missing `model`/`messages` (lines 320-325). -/
def invalidRequestBody : ErrorBody :=
  ⟨"请求格式不正确，需要提供 model 和 messages 参数", "invalid_request_error",
    none, none⟩

/-- 400 body for a last message that is not a user message (lines 331-336). -/
def lastNotUserBody : ErrorBody :=
  ⟨"最后一条消息必须是用户消息", "invalid_request_error", none, none⟩

/-- 400 body for an unsupported model id (lines 368-373). -/
def unsupportedModelBody (model : String) : ErrorBody :=
  ⟨"不支持的模型: " ++ model, "invalid_request_error", none, none⟩

instance decEqExcept {ε α : Type} [DecidableEq ε] [DecidableEq α] :
    DecidableEq (Except ε α) := fun x y =>
  match x, y with
  | .ok a, .ok b =>
    if h : a = b then isTrue (by rw [h]) else isFalse (by simp [h])
  | .error a, .error b =>
    if h : a = b then isTrue (by rw [h]) else isFalse (by simp [h])
  | .ok _, .error _ => isFalse (by simp)
  | .error _, .ok _ => isFalse (by simp)

/-- Which handler a validated request is dispatched to. -/
inductive RoutedTarget where
  | deepclaude : RoutedTarget
  | claude (modelId : String) : RoutedTarget
  | deepseek : RoutedTarget
deriving DecidableEq

/-- The validation and routing logic of the `POST /v1/chat/completions`
handler: reject missing `model`/`messages`; reject a non-user last
message; extract the user content; lowercase the model id; dispatch on
`includes("claude")` (with the exact id `deepclaude` going to the
hybrid handler), then `includes("deepseek")`; reject everything else.
Note that the extracted content is never checked for emptiness. -/
def chatCompletionsDispatch (r : ChatRequest) :
    Except ErrorBody (RoutedTarget × String) :=
  if r.model = "" ∨ r.messages = [] then .error invalidRequestBody
  else
    match r.messages.getLast? with
    | none => .error invalidRequestBody
    | some last =>
      if last.role ≠ "user" then .error lastNotUserBody
      else
        if jsIncludes (jsToLower r.model) "claude" then
          if jsToLower r.model = "deepclaude" then .ok (.deepclaude, last.content)
          else .ok (.claude (jsToLower r.model), last.content)
        else if jsIncludes (jsToLower r.model) "deepseek" then
          .ok (.deepseek, last.content)
        else .error (unsupportedModelBody r.model)

/-- The Claude model substitution of `handleClaudeRequest`
(`src/api-server.js` lines 413-425): the requested id if it is in the
configured list, else the first configured model containing `"3-5"`
when the requested id contains `"3-5"`, else the configured default
(the first configured model). -/
def selectClaudeModel (models : List String) (modelId : String) : String :=
  if modelId ∈ models then modelId
  else if jsIncludes modelId "3-5" then
    match models.find? (fun m => jsIncludes m "3-5") with
    | some m => m
    | none => models.headD ""
  else models.headD ""

/-- **Claim C6, amended.**  A request with missing `model`/`messages`
or whose last message is not a user message is rejected with an HTTP
400 whose body has the shape `error: (message, type)` — the `param` and
`code` fields are *not* set on these bodies; and an empty user content
is not validated at all: such a request is dispatched normally. -/
theorem malformed_request_validation (r : ChatRequest) :
    ((r.model = "" ∨ r.messages = []) →
      chatCompletionsDispatch r = .error invalidRequestBody) ∧
    (∀ last, ¬(r.model = "" ∨ r.messages = []) →
      r.messages.getLast? = some last → last.role ≠ "user" →
      chatCompletionsDispatch r = .error lastNotUserBody) ∧
    (∀ b, chatCompletionsDispatch r = .error b →
      b.param = none ∧ b.code = none) ∧
    (∀ last, ¬(r.model = "" ∨ r.messages = []) →
      r.messages.getLast? = some last → last.role = "user" →
      jsIncludes (jsToLower r.model) "claude" = false →
      jsIncludes (jsToLower r.model) "deepseek" = true →
      chatCompletionsDispatch r = .ok (.deepseek, last.content)) := by
  refine ⟨?_, ?_, ?_, ?_⟩
  · intro h
    unfold chatCompletionsDispatch
    rw [if_pos h]
  · intro last hval hlast hrole
    unfold chatCompletionsDispatch
    rw [if_neg hval, hlast]
    simp only [if_pos hrole]
  · intro b hb
    unfold chatCompletionsDispatch at hb
    split at hb
    · simp only [Except.error.injEq] at hb
      subst hb
      exact ⟨rfl, rfl⟩
    · split at hb
      · simp only [Except.error.injEq] at hb
        subst hb
        exact ⟨rfl, rfl⟩
      · split at hb
        · simp only [Except.error.injEq] at hb
          subst hb
          exact ⟨rfl, rfl⟩
        · split at hb
          · split at hb <;> simp at hb
          · split at hb
            · simp at hb
            · simp only [Except.error.injEq] at hb
              subst hb
              exact ⟨rfl, rfl⟩
  · intro last hval hlast hrole hcl hds
    unfold chatCompletionsDispatch
    rw [if_neg hval, hlast]
    simp only [hrole, hcl, hds]
    simp

/-- Witness for C6: a request with no messages is rejected with the
two-field body; a non-user last message is rejected; the rejected
bodies carry no `param`/`code`; a user message with empty content is
dispatched to the DeepSeek handler, not rejected. -/
theorem malformed_request_validation_witness :
    chatCompletionsDispatch ⟨"", []⟩ = .error invalidRequestBody ∧
      chatCompletionsDispatch ⟨"deepseek-r1", [⟨"assistant", "x"⟩]⟩ =
        .error lastNotUserBody ∧
      (invalidRequestBody.param = none ∧ invalidRequestBody.code = none) ∧
      chatCompletionsDispatch ⟨"deepseek-r1", [⟨"user", ""⟩]⟩ =
        .ok (.deepseek, "") :=
  ⟨(malformed_request_validation ⟨"", []⟩).1 (Or.inl rfl),
   (malformed_request_validation ⟨"deepseek-r1", [⟨"assistant", "x"⟩]⟩).2.1
     ⟨"assistant", "x"⟩ (by decide) rfl (by decide),
   (malformed_request_validation ⟨"", []⟩).2.2.1 invalidRequestBody
     ((malformed_request_validation ⟨"", []⟩).1 (Or.inl rfl)),
   (malformed_request_validation ⟨"deepseek-r1", [⟨"user", ""⟩]⟩).2.2.2
     ⟨"user", ""⟩ (by decide) rfl rfl (by decide) (by decide)⟩

/-- Counterexample to claim C6 as stated: a request whose last user
message has empty content is *not* answered with HTTP 400 — it is
dispatched to the DeepSeek handler; and the 400 bodies that are
produced carry only `message` and `type`, never `param` or `code`. -/
theorem malformed_request_shape_cex :
    chatCompletionsDispatch ⟨"deepseek-r1", [⟨"user", ""⟩]⟩ =
        .ok (.deepseek, "") ∧
      invalidRequestBody.param = none ∧ invalidRequestBody.code = none ∧
      lastNotUserBody.param = none ∧ lastNotUserBody.code = none := by
  refine ⟨by decide, rfl, rfl, rfl, rfl⟩

/-- **Claim C9.**  Model routing is by case-insensitive segment match
on the lowered model id: the id `deepclaude` (after lowering) goes to
the hybrid handler; any other id containing `claude` is dispatched to
the Claude handler, which substitutes the requested id when configured,
else the configured `3-5` model when the id contains `3-5`, else the
configured default (first configured model); an id containing
`deepseek` but not `claude` goes to the DeepSeek handler; and the
unsupported-model 400 happens exactly when the id contains neither
segment. -/
theorem model_routing_characterization (r : ChatRequest) (last : ChatMessage)
    (models : List String)
    (hval : ¬(r.model = "" ∨ r.messages = []))
    (hlast : r.messages.getLast? = some last)
    (hrole : last.role = "user") :
    (jsToLower r.model = "deepclaude" →
      chatCompletionsDispatch r = .ok (.deepclaude, last.content)) ∧
    (jsIncludes (jsToLower r.model) "claude" = true →
      jsToLower r.model ≠ "deepclaude" →
      chatCompletionsDispatch r = .ok (.claude (jsToLower r.model), last.content)) ∧
    (jsIncludes (jsToLower r.model) "claude" = false →
      jsIncludes (jsToLower r.model) "deepseek" = true →
      chatCompletionsDispatch r = .ok (.deepseek, last.content)) ∧
    (chatCompletionsDispatch r = .error (unsupportedModelBody r.model) ↔
      (jsIncludes (jsToLower r.model) "claude" = false ∧
        jsIncludes (jsToLower r.model) "deepseek" = false)) ∧
    (∀ mid, mid ∈ models → selectClaudeModel models mid = mid) ∧
    (∀ mid, mid ∉ models → jsIncludes mid "3-5" = false →
      selectClaudeModel models mid = models.headD "") ∧
    (∀ mid m35, mid ∉ models → jsIncludes mid "3-5" = true →
      models.find? (fun m => jsIncludes m "3-5") = some m35 →
      selectClaudeModel models mid = m35) := by
  have hd : chatCompletionsDispatch r =
      (if jsIncludes (jsToLower r.model) "claude" then
        (if jsToLower r.model = "deepclaude" then
          Except.ok (RoutedTarget.deepclaude, last.content)
         else Except.ok (RoutedTarget.claude (jsToLower r.model), last.content))
       else if jsIncludes (jsToLower r.model) "deepseek" then
        Except.ok (RoutedTarget.deepseek, last.content)
       else Except.error (unsupportedModelBody r.model)) := by
    unfold chatCompletionsDispatch
    rw [if_neg hval, hlast]
    simp only []
    rw [if_neg (show ¬(last.role ≠ "user") by simp [hrole])]
  refine ⟨?_, ?_, ?_, ?_, ?_, ?_, ?_⟩
  · intro hdc
    have hcl : jsIncludes (jsToLower r.model) "claude" = true := by
      rw [hdc]; decide
    rw [hd, hcl, if_pos rfl, if_pos hdc]
  · intro hcl hne
    rw [hd, hcl, if_pos rfl, if_neg hne]
  · intro hcl hds
    rw [hd, hcl, hds]
    simp
  · constructor
    · intro hdisp
      by_cases hcl : jsIncludes (jsToLower r.model) "claude" = true
      · rw [hd, hcl, if_pos rfl] at hdisp
        by_cases hdc : jsToLower r.model = "deepclaude"
        · rw [if_pos hdc] at hdisp
          exact absurd hdisp (by simp)
        · rw [if_neg hdc] at hdisp
          exact absurd hdisp (by simp)
      · rw [Bool.not_eq_true] at hcl
        by_cases hds : jsIncludes (jsToLower r.model) "deepseek" = true
        · rw [hd, hcl, hds] at hdisp
          exact absurd hdisp (by simp)
        · rw [Bool.not_eq_true] at hds
          exact ⟨hcl, hds⟩
    · rintro ⟨hcl, hds⟩
      rw [hd, hcl, hds]
      simp
  · intro mid hm
    unfold selectClaudeModel
    rw [if_pos hm]
  · intro mid hm h35
    unfold selectClaudeModel
    rw [if_neg hm, h35]
    simp
  · intro mid m35 hm h35 hfind
    unfold selectClaudeModel
    rw [if_neg hm, h35, hfind]
    simp

/-- Witness for C9 at concrete requests covering every routing branch
and every substitution branch, with the configured model list of
`config.yaml`. -/
theorem model_routing_characterization_witness :
    chatCompletionsDispatch ⟨"DeepClaude", [⟨"user", "q"⟩]⟩ =
        .ok (.deepclaude, "q") ∧
      chatCompletionsDispatch ⟨"claude-9", [⟨"user", "q"⟩]⟩ =
        .ok (.claude "claude-9", "q") ∧
      chatCompletionsDispatch ⟨"deepseek-r1", [⟨"user", "q"⟩]⟩ =
        .ok (.deepseek, "q") ∧
      chatCompletionsDispatch ⟨"gpt-4", [⟨"user", "q"⟩]⟩ =
        .error (unsupportedModelBody "gpt-4") ∧
      selectClaudeModel ["claude-3-7-sonnet-latest", "claude-3-5-sonnet-latest"]
          "claude-3-5-sonnet-latest" = "claude-3-5-sonnet-latest" ∧
      selectClaudeModel ["claude-3-7-sonnet-latest", "claude-3-5-sonnet-latest"]
          "claude-9" = "claude-3-7-sonnet-latest" ∧
      selectClaudeModel ["claude-3-7-sonnet-latest", "claude-3-5-sonnet-latest"]
          "claude-3-5-haiku" = "claude-3-5-sonnet-latest" :=
  ⟨(model_routing_characterization ⟨"DeepClaude", [⟨"user", "q"⟩]⟩ ⟨"user", "q"⟩ []
      (by decide) rfl rfl).1 (by decide),
   (model_routing_characterization ⟨"claude-9", [⟨"user", "q"⟩]⟩ ⟨"user", "q"⟩ []
      (by decide) rfl rfl).2.1 (by decide) (by decide),
   (model_routing_characterization ⟨"deepseek-r1", [⟨"user", "q"⟩]⟩ ⟨"user", "q"⟩ []
      (by decide) rfl rfl).2.2.1 (by decide) (by decide),
   (model_routing_characterization ⟨"gpt-4", [⟨"user", "q"⟩]⟩ ⟨"user", "q"⟩ []
      (by decide) rfl rfl).2.2.2.1.mpr ⟨by decide, by decide⟩,
   (model_routing_characterization ⟨"x", [⟨"user", "q"⟩]⟩ ⟨"user", "q"⟩
      ["claude-3-7-sonnet-latest", "claude-3-5-sonnet-latest"]
      (by decide) rfl rfl).2.2.2.2.1 "claude-3-5-sonnet-latest" (by decide),
   (model_routing_characterization ⟨"x", [⟨"user", "q"⟩]⟩ ⟨"user", "q"⟩
      ["claude-3-7-sonnet-latest", "claude-3-5-sonnet-latest"]
      (by decide) rfl rfl).2.2.2.2.2.1 "claude-9" (by decide) (by decide),
   (model_routing_characterization ⟨"x", [⟨"user", "q"⟩]⟩ ⟨"user", "q"⟩
      ["claude-3-7-sonnet-latest", "claude-3-5-sonnet-latest"]
      (by decide) rfl rfl).2.2.2.2.2.2 "claude-3-5-haiku"
      "claude-3-5-sonnet-latest" (by decide) (by decide) (by decide)⟩

/-! ## Non-streaming (aggregate) responses and usage counters
(claims C7, C8)

The aggregate builders of `handleClaudeRequest` (lines 541-608),
`handleDeepSeekRequest` (lines 833-865) with
`handleDeepSeekNonStreamResponseWithThinking` (lines 883-926),
`handleDeepClaudeRequest` (lines 1125-1193), and
`handleDirectClaudeRequest` (lines 1372-1443) of `src/api-server.js`,
plus the non-streaming branch of the module DeepClaude handler
(`src/models/deepclaude-model.js` lines 331-507). -/

/-- The fields of a non-streaming `chat.completion` response the claims
are about. -/
structure ChatCompletionResult where
  content : String
  promptTokens : Nat
  completionTokens : Nat
  totalTokens : Nat
deriving DecidableEq

/-- Claude non-streaming response (`handleClaudeRequest`): concatenate
the text deltas of the upstream body's lines; empty content is a 500
error; usage counts the user input and the content by length. -/
def claudeAggregate (userInput : String) (cevs : List ClaudeEvent) :
    Except ErrorBody ChatCompletionResult :=
  if concatStrings (claudeDeltaTexts cevs) = "" then
    .error ⟨"Claude 响应格式异常", "server_error", none, none⟩
  else
    .ok ⟨concatStrings (claudeDeltaTexts cevs), userInput.length,
      (concatStrings (claudeDeltaTexts cevs)).length,
      userInput.length + (concatStrings (claudeDeltaTexts cevs)).length⟩

/-- The thinking/answer collection of
`handleDeepSeekNonStreamResponseWithThinking`: thinking contents and
answer contents are accumulated separately, and the thinking text is
returned trimmed. -/
def dsCollect : String → String → List UpstreamEvent → String × String
  | th, ans, [] => (th, ans)
  | th, ans, .thinking s :: rest => dsCollect (th ++ s) ans rest
  | th, ans, .answer s :: rest => dsCollect th (ans ++ s) rest
  | th, ans, .answerSignal :: rest => dsCollect th ans rest
  | th, ans, .other :: rest => dsCollect th ans rest

/-- DeepSeek non-streaming response (`handleDeepSeekRequest`, lines
833-865): if the trimmed thinking text is non-empty it is wrapped in
the `<思考过程>` block and prepended to the answer text. -/
def dsAggregateContent (evs : List UpstreamEvent) : String :=
  if jsTrim (dsCollect "" "" evs).1 ≠ "" then
    "<思考过程>\n" ++ jsTrim (jsTrim (dsCollect "" "" evs).1) ++
      "\n</思考过程>\n\n" ++ (dsCollect "" "" evs).2
  else (dsCollect "" "" evs).2

def dsAggregate (userInput : String) (evs : List UpstreamEvent) :
    ChatCompletionResult :=
  ⟨dsAggregateContent evs, userInput.length, (dsAggregateContent evs).length,
    userInput.length + (dsAggregateContent evs).length⟩

/-- The reasoning-augmented prompt the monolithic DeepClaude handler
sends to Claude (`src/api-server.js` lines 999-1004). -/
def deepClaudePrompt (thinking : String) : String :=
  "请根据以下思考过程给出回答：\n\n思考过程：\n" ++ thinking ++
    "\n\n请直接给出你的回答，不要重复我的问题或思考过程。"

/-- Monolithic DeepClaude non-streaming response (`src/api-server.js`
lines 1125-1193): the content is Claude's answer only, and
`prompt_tokens` counts the *augmented prompt*, not the user's input. -/
def apiDeepClaudeAggregate (thinking : String) (cevs : List ClaudeEvent) :
    Except ErrorBody ChatCompletionResult :=
  if concatStrings (claudeDeltaTexts cevs) = "" then
    .error ⟨"Claude 响应格式异常", "server_error", none, none⟩
  else
    .ok ⟨concatStrings (claudeDeltaTexts cevs),
      (deepClaudePrompt thinking).length,
      (concatStrings (claudeDeltaTexts cevs)).length,
      (deepClaudePrompt thinking).length +
        (concatStrings (claudeDeltaTexts cevs)).length⟩

/-- The `<思考过程>` wrapping used by the module DeepClaude handler
(`src/models/deepclaude-model.js` line 485). -/
def wrapThinking (t : String) : String :=
  "<思考过程>\n" ++ jsTrim t ++ "\n</思考过程>\n\n"

/-- Module DeepClaude non-streaming response
(`src/models/deepclaude-model.js` lines 331-507): empty collected
thinking is a 500 error; otherwise the content is the wrapped thinking
followed by Claude's answer, `prompt_tokens` counts the user message,
and `completion_tokens` counts only Claude's answer. -/
def dcModuleAggregate (message thinking answer : String) :
    Except String ChatCompletionResult :=
  if thinking.length > 0 then
    .ok ⟨wrapThinking thinking ++ answer, message.length, answer.length,
      message.length + answer.length⟩
  else .error "未收集到有效思考内容"

/-- The request data `handleDirectClaudeRequest` sends to the
answering provider: the `text` field carries the user's original input
(lines 1251-1271). -/
structure ClaudeRequestData where
  model : String
  maxTokens : Nat
  text : String
deriving DecidableEq

def buildDirectClaudeRequest (userInput claudeModel : String) (maxTokens : Nat) :
    ClaudeRequestData :=
  ⟨claudeModel, maxTokens, userInput⟩

/-- Fallback streaming output (`handleDirectClaudeRequest`, lines
1273-1371): role chunk, then the fixed notice chunk, then the forwarded
Claude text deltas, then the terminal chunks. -/
def directClaudeStream (cevs : List ClaudeEvent) : List Chunk :=
  Chunk.role :: Chunk.notice ::
    ((claudeDeltaTexts cevs).map Chunk.answerDelta ++ [Chunk.finish, Chunk.done])

/-- Fallback non-streaming response (`handleDirectClaudeRequest`, lines
1372-1443): the notice is prepended to the content *before* the usage
counters are computed. -/
def directClaudeAggregate (userInput : String) (cevs : List ClaudeEvent) :
    Except ErrorBody ChatCompletionResult :=
  if concatStrings (claudeDeltaTexts cevs) = "" then
    .error ⟨"Claude 响应格式异常", "server_error", none, none⟩
  else
    .ok ⟨fallbackNotice ++ concatStrings (claudeDeltaTexts cevs),
      userInput.length,
      (fallbackNotice ++ concatStrings (claudeDeltaTexts cevs)).length,
      userInput.length +
        (fallbackNotice ++ concatStrings (claudeDeltaTexts cevs)).length⟩

/-- **Claim C7.**  On the hybrid fallback path, the request sent to the
answering provider carries the user's original input unchanged, and the
visible output is prefixed by the fixed fallback notice in both modes:
in streaming mode the first content-carrying chunk after the role chunk
is the notice chunk, and in aggregate mode the returned content starts
with the notice. -/
theorem fallback_notice_and_original_input (userInput claudeModel : String)
    (maxTokens : Nat) (cevs : List ClaudeEvent) :
    (buildDirectClaudeRequest userInput claudeModel maxTokens).text = userInput ∧
    deltaContents (directClaudeStream cevs) =
      fallbackNotice :: claudeDeltaTexts cevs ∧
    (∀ r, directClaudeAggregate userInput cevs = .ok r →
      ∃ t, r.content = fallbackNotice ++ t) := by
  refine ⟨rfl, ?_, ?_⟩
  · have hmap : (render ∘ Chunk.answerDelta) = some := by
      funext s
      rfl
    simp only [directClaudeStream, deltaContents, List.filterMap_cons, render,
      List.filterMap_append, List.filterMap_map, hmap, List.filterMap_some]
    simp
  · intro r hr
    unfold directClaudeAggregate at hr
    split at hr
    · cases hr
    · simp only [Except.ok.injEq] at hr
      exact ⟨concatStrings (claudeDeltaTexts cevs), by rw [← hr]⟩

/-- Witness for C7 at a concrete fallback session with one Claude
delta. -/
theorem fallback_notice_witness :
    (buildDirectClaudeRequest "hello" "claude-3-7-sonnet-latest" 8192).text =
        "hello" ∧
      deltaContents (directClaudeStream [ClaudeEvent.textDelta "hi"]) =
        fallbackNotice :: claudeDeltaTexts [ClaudeEvent.textDelta "hi"] ∧
      (∃ t, (⟨fallbackNotice ++ "hi", 5, (fallbackNotice ++ "hi").length,
          5 + (fallbackNotice ++ "hi").length⟩ : ChatCompletionResult).content =
        fallbackNotice ++ t) :=
  ⟨(fallback_notice_and_original_input "hello" "claude-3-7-sonnet-latest" 8192
      [ClaudeEvent.textDelta "hi"]).1,
   (fallback_notice_and_original_input "hello" "claude-3-7-sonnet-latest" 8192
      [ClaudeEvent.textDelta "hi"]).2.1,
   (fallback_notice_and_original_input "hello" "claude-3-7-sonnet-latest" 8192
      [ClaudeEvent.textDelta "hi"]).2.2 _ (by decide)⟩

/-- **Claim C8, amended.**  For the single-provider non-streaming
responses (Claude, DeepSeek, and the fallback direct-Claude path),
`usage.prompt_tokens` is the character length of the user's input,
`usage.completion_tokens` is the character length of the returned
content, and `usage.total_tokens` is their sum.  For the hybrid
non-streaming responses this fails: the monolithic server counts the
reasoning-augmented Claude prompt as `prompt_tokens`, and the module
handler counts only Claude's answer as `completion_tokens` while the
returned content also contains the wrapped thinking block. -/
theorem usage_characterization :
    (∀ u cevs r, claudeAggregate u cevs = .ok r →
      r.promptTokens = u.length ∧ r.completionTokens = r.content.length ∧
        r.totalTokens = r.promptTokens + r.completionTokens) ∧
    (∀ u evs, (dsAggregate u evs).promptTokens = u.length ∧
      (dsAggregate u evs).completionTokens = (dsAggregate u evs).content.length ∧
      (dsAggregate u evs).totalTokens =
        (dsAggregate u evs).promptTokens + (dsAggregate u evs).completionTokens) ∧
    (∀ u cevs r, directClaudeAggregate u cevs = .ok r →
      r.promptTokens = u.length ∧ r.completionTokens = r.content.length ∧
        r.totalTokens = r.promptTokens + r.completionTokens) ∧
    (∀ th cevs r, apiDeepClaudeAggregate th cevs = .ok r →
      r.promptTokens = (deepClaudePrompt th).length ∧
        r.completionTokens = r.content.length) ∧
    (∀ m th ans r, dcModuleAggregate m th ans = .ok r →
      r.promptTokens = m.length ∧ r.completionTokens = ans.length ∧
        r.content = wrapThinking th ++ ans) := by
  refine ⟨?_, ?_, ?_, ?_, ?_⟩
  · intro u cevs r hr
    unfold claudeAggregate at hr
    split at hr
    · cases hr
    · simp only [Except.ok.injEq] at hr
      subst hr
      exact ⟨rfl, rfl, rfl⟩
  · intro u evs
    exact ⟨rfl, rfl, rfl⟩
  · intro u cevs r hr
    unfold directClaudeAggregate at hr
    split at hr
    · cases hr
    · simp only [Except.ok.injEq] at hr
      subst hr
      exact ⟨rfl, rfl, rfl⟩
  · intro th cevs r hr
    unfold apiDeepClaudeAggregate at hr
    split at hr
    · cases hr
    · simp only [Except.ok.injEq] at hr
      subst hr
      exact ⟨rfl, rfl⟩
  · intro m th ans r hr
    unfold dcModuleAggregate at hr
    split at hr
    · simp only [Except.ok.injEq] at hr
      subst hr
      exact ⟨rfl, rfl, rfl⟩
    · cases hr

/-- Witness for C8 at concrete non-streaming sessions of each handler. -/
theorem usage_characterization_witness :
    ((⟨"ok", 2, 2, 4⟩ : ChatCompletionResult).promptTokens =
        ("hi" : String).length ∧
      (⟨"ok", 2, 2, 4⟩ : ChatCompletionResult).completionTokens =
        (⟨"ok", 2, 2, 4⟩ : ChatCompletionResult).content.length ∧
      (⟨"ok", 2, 2, 4⟩ : ChatCompletionResult).totalTokens =
        (⟨"ok", 2, 2, 4⟩ : ChatCompletionResult).promptTokens +
          (⟨"ok", 2, 2, 4⟩ : ChatCompletionResult).completionTokens) ∧
    ((dsAggregate "hi" [UpstreamEvent.thinking "t", UpstreamEvent.answer "x"]).promptTokens =
        ("hi" : String).length ∧
      (dsAggregate "hi" [UpstreamEvent.thinking "t", UpstreamEvent.answer "x"]).completionTokens =
        (dsAggregate "hi" [UpstreamEvent.thinking "t", UpstreamEvent.answer "x"]).content.length ∧
      (dsAggregate "hi" [UpstreamEvent.thinking "t", UpstreamEvent.answer "x"]).totalTokens =
        (dsAggregate "hi" [UpstreamEvent.thinking "t", UpstreamEvent.answer "x"]).promptTokens +
          (dsAggregate "hi" [UpstreamEvent.thinking "t", UpstreamEvent.answer "x"]).completionTokens) ∧
    ((⟨wrapThinking "t" ++ "x", 2, 1, 3⟩ : ChatCompletionResult).promptTokens =
        ("hi" : String).length ∧
      (⟨wrapThinking "t" ++ "x", 2, 1, 3⟩ : ChatCompletionResult).completionTokens =
        ("x" : String).length ∧
      (⟨wrapThinking "t" ++ "x", 2, 1, 3⟩ : ChatCompletionResult).content =
        wrapThinking "t" ++ "x") :=
  ⟨usage_characterization.1 "hi" [ClaudeEvent.textDelta "ok"] ⟨"ok", 2, 2, 4⟩
     (by decide),
   usage_characterization.2.1 "hi"
     [UpstreamEvent.thinking "t", UpstreamEvent.answer "x"],
   usage_characterization.2.2.2.2 "hi" "t" "x" ⟨wrapThinking "t" ++ "x", 2, 1, 3⟩
     (by decide)⟩

/-- Counterexample to claim C8 as stated: for the monolithic
DeepClaude non-streaming response with user input `"hi"` and thinking
text `"t"`, `prompt_tokens` is the length of the augmented Claude
prompt, not the length `2` of the user's input; and for the module
DeepClaude response, `completion_tokens` differs from the length of the
returned content. -/
theorem usage_hybrid_cex :
    (apiDeepClaudeAggregate "t" [ClaudeEvent.textDelta "ok"]).toOption.map
        (fun r => r.promptTokens) ≠ some (("hi" : String).length) ∧
      (dcModuleAggregate "hi" "t" "x").toOption.map
        (fun r => decide (r.completionTokens = r.content.length)) = some false := by
  refine ⟨by decide, by decide⟩

/-! ## API-key resolution of the module handlers (claim C10)

`getTokenFromRequest` and `getClaudeApiKey` of
`src/models/claude-model.js` (lines 73-167) and
`src/models/deepclaude-model.js` (lines 85-179); the two files contain
the same logic.  The file read is modelled by an optional raw file
content (`none` covering an unconfigured path, a missing file, or a
read error). -/

/-- JavaScript `s.startsWith(pat)`. -/
def jsStartsWith (s pat : String) : Bool := leadsWith pat.data s.data

/-- `getTokenFromRequest`: a `Bearer `-prefixed Authorization header is
used verbatim; a non-`Bearer` header is dropped under
`header_token_config = "ignore"`, otherwise prefixed; no header (or an
empty one, which is falsy) yields `none`. -/
def getTokenFromRequest (headerTokenConfig : String)
    (authHeader : Option String) : Option String :=
  match authHeader with
  | some h =>
    if h ≠ "" then
      if jsStartsWith h "Bearer " then some h
      else if headerTokenConfig = "ignore" then none
      else some ("Bearer " ++ h)
    else none
  | none => none

/-- `getClaudeApiKey`: the request-header token wins; else the
configured key (trimmed, `Bearer `-prefixed when missing); else the key
file's trimmed content (`Bearer `-prefixed when missing); else
failure. -/
def getClaudeApiKey (headerTokenConfig claudeApiKey : String)
    (fileContent : Option String) (authHeader : Option String) : Option String :=
  match getTokenFromRequest headerTokenConfig authHeader with
  | some t => some t
  | none =>
    if claudeApiKey ≠ "" ∧ jsTrim claudeApiKey ≠ "" then
      some (if jsStartsWith (jsTrim claudeApiKey) "Bearer " then jsTrim claudeApiKey
        else "Bearer " ++ jsTrim claudeApiKey)
    else
      match fileContent with
      | some c =>
        if jsTrim c ≠ "" then
          some (if jsStartsWith (jsTrim c) "Bearer " then jsTrim c
            else "Bearer " ++ jsTrim c)
        else none
      | none => none

/-- **Claim C10.**  In the module-based handlers, under the default
`header_token_config = "ignore"`: an Authorization header starting with
`"Bearer "` is forwarded verbatim, overriding the configured key; a
header without that start is ignored, the resolution then being
identical to having no header at all; in that case the configured key
is used when its trimmed value is non-empty, else the key-file content,
each getting a `"Bearer "` prefix exactly when missing. -/
theorem header_token_resolution (cfgKey : String) (fileContent : Option String) :
    (∀ h, jsStartsWith h "Bearer " = true →
      getClaudeApiKey "ignore" cfgKey fileContent (some h) = some h) ∧
    (∀ h, jsStartsWith h "Bearer " = false →
      getClaudeApiKey "ignore" cfgKey fileContent (some h) =
        getClaudeApiKey "ignore" cfgKey fileContent none) ∧
    (jsTrim cfgKey ≠ "" →
      getClaudeApiKey "ignore" cfgKey fileContent none =
        some (if jsStartsWith (jsTrim cfgKey) "Bearer " then jsTrim cfgKey
          else "Bearer " ++ jsTrim cfgKey)) ∧
    (∀ c, jsTrim cfgKey = "" → fileContent = some c → jsTrim c ≠ "" →
      getClaudeApiKey "ignore" cfgKey fileContent none =
        some (if jsStartsWith (jsTrim c) "Bearer " then jsTrim c
          else "Bearer " ++ jsTrim c)) := by
  refine ⟨?_, ?_, ?_, ?_⟩
  · intro h hB
    have hne : h ≠ "" := by
      intro he
      subst he
      exact absurd hB (by decide)
    unfold getClaudeApiKey getTokenFromRequest
    simp [hne, hB]
  · intro h hB
    have ht : getTokenFromRequest "ignore" (some h) = none := by
      unfold getTokenFromRequest
      by_cases he : h = ""
      · simp [he]
      · simp [he, hB]
    unfold getClaudeApiKey
    rw [ht]
    rfl
  · intro h3
    have hne : cfgKey ≠ "" := by
      intro he
      rw [he] at h3
      exact h3 rfl
    unfold getClaudeApiKey getTokenFromRequest
    simp [hne, h3]
  · intro c h0 hfc hc
    subst hfc
    unfold getClaudeApiKey getTokenFromRequest
    simp [h0, hc]

/-- Witness for C10 at concrete headers, keys and file contents. -/
theorem header_token_resolution_witness :
    getClaudeApiKey "ignore" "sk-123" none (some "Bearer abc") =
        some "Bearer abc" ∧
      getClaudeApiKey "ignore" "sk-123" none (some "raw-token") =
        getClaudeApiKey "ignore" "sk-123" none none ∧
      getClaudeApiKey "ignore" "sk-123" none none = some "Bearer sk-123" ∧
      getClaudeApiKey "ignore" "" (some "sk-file") none = some "Bearer sk-file" :=
  ⟨(header_token_resolution "sk-123" none).1 "Bearer abc" (by decide),
   (header_token_resolution "sk-123" none).2.1 "raw-token" (by decide),
   by
     have h := (header_token_resolution "sk-123" none).2.2.1 (by decide)
     simpa using h,
   by
     have h := (header_token_resolution "" (some "sk-file")).2.2.2 "sk-file"
       (by decide) rfl (by decide)
     simpa using h⟩
